import Mathlib

/-!
Verification of the authentication, authorization and log-querying layer of
the SupportAgentMetricGPT dashboard (`src/SupportAgentMetricGPT/main.py`).

The Python script is embedded shallowly: the credential store is an
association list of email/record pairs, the persisted credential file is an
optional string holding its JSON rendering, the agent directory is an
association list of supervisor email to agent-name lists, and each handler
(signup, login, post-login agent resolution, startup directory load) becomes a
pure function from its inputs to a structured outcome that records the new
store, the persisted file, the user-visible message and the log entries
written via `log_error`.  Machine integers are `Nat` with explicit `% 2 ^ 32`
where the SHA-256 compression function overflows.
-/

namespace SAM

/-! ### SHA-256 (`hash_pw`, `main.py` line 56)

`hash_pw(pw)` is `hashlib.sha256(pw.encode()).hexdigest()`.  The digest is
implemented from FIPS 180-4 over `Nat` bytes/words; the round constants are
the fractional parts of the cube roots (resp. square roots) of the first 64
(resp. 8) primes, computed exactly with integer root extraction. -/

def pow32 : Nat := 4294967296

/-- Integer cube root by descending binary search on the bits of the root. -/
def icbrtAux : Nat → Nat → Nat → Nat
  | 0, _, acc => acc
  | b + 1, n, acc =>
    let t := acc + (1 <<< b)
    if t * t * t ≤ n then icbrtAux b n t else icbrtAux b n acc

def icbrt (n : Nat) : Nat := icbrtAux 40 n 0

/-- The first 64 primes, whose cube-root fractions give the SHA-256 round
constants and whose square-root fractions (first 8) give the initial hash. -/
def primes64 : List Nat :=
  [2, 3, 5, 7, 11, 13, 17, 19, 23, 29, 31, 37, 41, 43, 47, 53,
   59, 61, 67, 71, 73, 79, 83, 89, 97, 101, 103, 107, 109, 113, 127, 131,
   137, 139, 149, 151, 157, 163, 167, 173, 179, 181, 191, 193, 197, 199, 211, 223,
   227, 229, 233, 239, 241, 251, 257, 263, 269, 271, 277, 281, 283, 293, 307, 311]

def sha256K : List Nat := primes64.map (fun p => icbrt (p <<< 96) % pow32)

def sha256H0 : List Nat := (primes64.take 8).map (fun p => Nat.sqrt (p <<< 64) % pow32)

def rotr32 (n x : Nat) : Nat := ((x >>> n) ||| (x <<< (32 - n))) % pow32

def bsig0 (x : Nat) : Nat := rotr32 2 x ^^^ rotr32 13 x ^^^ rotr32 22 x
def bsig1 (x : Nat) : Nat := rotr32 6 x ^^^ rotr32 11 x ^^^ rotr32 25 x
def ssig0 (x : Nat) : Nat := rotr32 7 x ^^^ rotr32 18 x ^^^ (x >>> 3)
def ssig1 (x : Nat) : Nat := rotr32 17 x ^^^ rotr32 19 x ^^^ (x >>> 10)
def chf (x y z : Nat) : Nat := (x &&& y) ^^^ ((x ^^^ (pow32 - 1)) &&& z)
def majf (x y z : Nat) : Nat := (x &&& y) ^^^ (x &&& z) ^^^ (y &&& z)

/-- UTF-8 encoding of one scalar value, as `str.encode()` produces. -/
def utf8Encode (c : Char) : List Nat :=
  let n := c.toNat
  if n < 128 then [n]
  else if n < 2048 then [192 ||| (n >>> 6), 128 ||| (n &&& 63)]
  else if n < 65536 then
    [224 ||| (n >>> 12), 128 ||| ((n >>> 6) &&& 63), 128 ||| (n &&& 63)]
  else
    [240 ||| (n >>> 18), 128 ||| ((n >>> 12) &&& 63),
     128 ||| ((n >>> 6) &&& 63), 128 ||| (n &&& 63)]

def utf8Bytes (s : String) : List Nat :=
  s.toList.foldr (fun c acc => utf8Encode c ++ acc) []

/-- Big-endian 8-byte rendering of the message bit length. -/
def be64 (n : Nat) : List Nat :=
  [(n >>> 56) % 256, (n >>> 48) % 256, (n >>> 40) % 256, (n >>> 32) % 256,
   (n >>> 24) % 256, (n >>> 16) % 256, (n >>> 8) % 256, n % 256]

/-- FIPS 180-4 padding: append `0x80`, zeros to 56 mod 64, then the bit length. -/
def sha256Pad (msg : List Nat) : List Nat :=
  let L := msg.length
  msg ++ 128 :: List.replicate ((119 - L % 64) % 64) 0 ++ be64 (L * 8)

/-- Split the padded message into 64-byte blocks; the first argument is a
recursion bound, for which the list's length always suffices because every
step consumes at least one byte. -/
def chunk64Aux : Nat → List Nat → List (List Nat)
  | 0, _ => []
  | _ + 1, [] => []
  | fuel + 1, b :: rest => ((b :: rest).take 64) :: chunk64Aux fuel ((b :: rest).drop 64)

def chunk64 (l : List Nat) : List (List Nat) := chunk64Aux l.length l

def bytesToWords : List Nat → List Nat
  | a :: b :: c :: d :: rest =>
    (a * 16777216 + b * 65536 + c * 256 + d) :: bytesToWords rest
  | _ => []

/-- The 64-entry message schedule of one block. -/
def sha256W (block : List Nat) : Array Nat :=
  (List.range 64).foldl
    (fun w i =>
      if i < 16 then w.push (block.getD i 0)
      else w.push ((ssig1 (w.getD (i - 2) 0) + w.getD (i - 7) 0 +
                    ssig0 (w.getD (i - 15) 0) + w.getD (i - 16) 0) % pow32))
    #[]

structure H8 where
  a : Nat
  b : Nat
  c : Nat
  d : Nat
  e : Nat
  f : Nat
  g : Nat
  h : Nat
deriving DecidableEq

def sha256Round (w : Array Nat) (s : H8) (i : Nat) : H8 :=
  let t1 := (s.h + bsig1 s.e + chf s.e s.f s.g + sha256K.getD i 0 + w.getD i 0) % pow32
  let t2 := (bsig0 s.a + majf s.a s.b s.c) % pow32
  ⟨(t1 + t2) % pow32, s.a, s.b, s.c, (s.d + t1) % pow32, s.e, s.f, s.g⟩

def sha256Compress (st : List Nat) (block : List Nat) : List Nat :=
  let w := sha256W block
  let s0 : H8 := ⟨st.getD 0 0, st.getD 1 0, st.getD 2 0, st.getD 3 0,
                  st.getD 4 0, st.getD 5 0, st.getD 6 0, st.getD 7 0⟩
  let s := (List.range 64).foldl (sha256Round w) s0
  [(st.getD 0 0 + s.a) % pow32, (st.getD 1 0 + s.b) % pow32,
   (st.getD 2 0 + s.c) % pow32, (st.getD 3 0 + s.d) % pow32,
   (st.getD 4 0 + s.e) % pow32, (st.getD 5 0 + s.f) % pow32,
   (st.getD 6 0 + s.g) % pow32, (st.getD 7 0 + s.h) % pow32]

/-- Lowercase hex digit for a value below 16. -/
def hexDigit (n : Nat) : Char :=
  if n < 10 then Char.ofNat (48 + n) else Char.ofNat (87 + n)

def hex4 (n : Nat) : List Char :=
  [hexDigit (n / 4096 % 16), hexDigit (n / 256 % 16),
   hexDigit (n / 16 % 16), hexDigit (n % 16)]

def hex8 (n : Nat) : List Char := hex4 (n >>> 16) ++ hex4 (n &&& 65535)

def sha256Hex (msg : List Nat) : String :=
  let final := (chunk64 (sha256Pad msg)).foldl
    (fun st block => sha256Compress st (bytesToWords block)) sha256H0
  (final.foldr (fun wd acc => hex8 wd ++ acc) []).asString

/-- `hash_pw` (`main.py` line 56): SHA-256 hex digest of the UTF-8 password. -/
def hash_pw (pw : String) : String := sha256Hex (utf8Bytes pw)

/-! ### The credential store and its JSON persistence

`users.json` holds one JSON object per store, schema `\x7b email: \x7b"hash":
digest\x7d\x7d` (`main.py` lines 59-66 and 112-114).  `dumpUsers` renders a
store exactly as `json.dump` does with its defaults (item separator `", "`,
key separator `": "`, `ensure_ascii=True`, so every character outside
printable ASCII is `\uXXXX`-escaped, astral characters as surrogate pairs).
`parseUsers` reads back the sublanguage of JSON that `json.dump` produces for
this schema; on any other text it returns `none`, matching the
`json.JSONDecodeError` branch of the loader for every persisted form this
program writes. -/

structure UserRec where
  hash : String
deriving DecidableEq

abbrev Store := List (String × UserRec)

/-- One character escaped as `json.dump(..., ensure_ascii=True)` escapes it. -/
def escapeChar (c : Char) : List Char :=
  if c = '\x22' then ['\\', '\x22']
  else if c = '\\' then ['\\', '\\']
  else if c = '\x08' then ['\\', 'b']
  else if c = '\x09' then ['\\', 't']
  else if c = '\x0a' then ['\\', 'n']
  else if c = '\x0c' then ['\\', 'f']
  else if c = '\x0d' then ['\\', 'r']
  else if 32 ≤ c.toNat ∧ c.toNat ≤ 126 then [c]
  else if c.toNat < 65536 then '\\' :: 'u' :: hex4 c.toNat
  else '\\' :: 'u' :: hex4 (55296 + (c.toNat - 65536) / 1024) ++
       '\\' :: 'u' :: hex4 (56320 + (c.toNat - 65536) % 1024)

def escapeString (s : List Char) : List Char :=
  s.foldr (fun c acc => escapeChar c ++ acc) []

/-- The literal `: \x7b"hash": ` between an email key and its digest value
(with the surrounding quotes that are fixed by the schema). -/
def midLit : List Char :=
  [':', ' ', '\x7b', '\x22', 'h', 'a', 's', 'h', '\x22', ':', ' ', '\x22']

def dumpEntry (e : String) (r : UserRec) : List Char :=
  '\x22' :: escapeString e.toList ++ '\x22' :: midLit ++
    escapeString r.hash.toList ++ ['\x22', '\x7d']

def dumpEntries : Store → List Char
  | [] => []
  | (e, r) :: rest =>
    dumpEntry e r ++ (match rest with | [] => [] | _ :: _ => ',' :: ' ' :: dumpEntries rest)

/-- `json.dump(users, f)` (`main.py` line 114): the whole store as one JSON
object in insertion order. -/
def dumpUsers (m : Store) : String := ('\x7b' :: dumpEntries m ++ ['\x7d']).asString

def hexVal (c : Char) : Option Nat :=
  if 48 ≤ c.toNat ∧ c.toNat ≤ 57 then some (c.toNat - 48)
  else if 97 ≤ c.toNat ∧ c.toNat ≤ 102 then some (c.toNat - 87)
  else if 65 ≤ c.toNat ∧ c.toNat ≤ 70 then some (c.toNat - 55)
  else none

def consStr (c : Char) (res : Option (List Char × List Char)) :
    Option (List Char × List Char) :=
  res.map (fun p => (c :: p.1, p.2))

/-- Four hex digits, as in a `\uXXXX` escape. -/
def parseHex4 : List Char → Option (Nat × List Char)
  | h1 :: h2 :: h3 :: h4 :: r =>
    match hexVal h1, hexVal h2, hexVal h3, hexVal h4 with
    | some a, some b, some c, some d => some (a * 4096 + b * 256 + c * 16 + d, r)
    | _, _, _, _ => none
  | _ => none

/-- The body of a `\u` escape: one scalar value, recombining a surrogate
pair into its astral code point as `json.loads` does; a lone surrogate is
rejected (it is not a scalar value, and the serializer never emits one). -/
def parseU (r : List Char) : Option (Char × List Char) :=
  match parseHex4 r with
  | some (n, r2) =>
    if 55296 ≤ n ∧ n ≤ 56319 then
      match r2 with
      | '\\' :: 'u' :: r2x =>
        match parseHex4 r2x with
        | some (k, r3) =>
          if 56320 ≤ k ∧ k ≤ 57343 then
            some (Char.ofNat (65536 + (n - 55296) * 1024 + (k - 56320)), r3)
          else none
        | none => none
      | _ => none
    else if 56320 ≤ n ∧ n ≤ 57343 then none
    else some (Char.ofNat n, r2)
  | none => none

/-- JSON string body (after the opening quote): unescape until the closing
quote, returning the content and the remainder.  Fuel decreases once per
produced character; one unit beyond the content length always suffices. -/
def parseStr : Nat → List Char → Option (List Char × List Char)
  | 0, _ => none
  | _ + 1, [] => none
  | fuel + 1, c :: rest =>
    if c = '\x22' then some ([], rest)
    else if c = '\\' then
      match rest with
      | [] => none
      | e :: r =>
        if e = '\x22' then consStr '\x22' (parseStr fuel r)
        else if e = '\\' then consStr '\\' (parseStr fuel r)
        else if e = '/' then consStr '/' (parseStr fuel r)
        else if e = 'b' then consStr '\x08' (parseStr fuel r)
        else if e = 'f' then consStr '\x0c' (parseStr fuel r)
        else if e = 'n' then consStr '\x0a' (parseStr fuel r)
        else if e = 'r' then consStr '\x0d' (parseStr fuel r)
        else if e = 't' then consStr '\x09' (parseStr fuel r)
        else if e = 'u' then
          match parseU r with
          | some (ch, r2) => consStr ch (parseStr fuel r2)
          | none => none
        else none
    else consStr c (parseStr fuel rest)

def dropLit : List Char → List Char → Option (List Char)
  | [], l => some l
  | _ :: _, [] => none
  | p :: ps, c :: cs => if c = p then dropLit ps cs else none

/-- The entry sequence of the store object, after its opening brace.  Fuel
decreases once per entry. -/
def parseEntries : Nat → List Char → Option Store
  | 0, _ => none
  | _ + 1, '\x7d' :: rest => if rest = [] then some [] else none
  | fuel + 1, '\x22' :: rest =>
    match parseStr (rest.length + 1) rest with
    | none => none
    | some (e, r1) =>
      match dropLit midLit r1 with
      | none => none
      | some r2 =>
        match parseStr (r2.length + 1) r2 with
        | none => none
        | some (h, r3) =>
          match r3 with
          | '\x7d' :: ',' :: ' ' :: r4 =>
            (parseEntries fuel r4).map (fun l => (e.asString, ⟨h.asString⟩) :: l)
          | ['\x7d', '\x7d'] => some [(e.asString, ⟨h.asString⟩)]
          | _ => none
  | _ + 1, _ => none

/-- `json.load` on the credential file (`main.py` line 64), for the schema
this program persists. -/
def parseUsers (s : String) : Option Store :=
  match s.toList with
  | '\x7b' :: r => parseEntries (r.length + 1) r
  | _ => none

/-- The credential-file write on registration (`main.py` lines 113-114):
the whole persisted store is overwritten from the in-memory mapping,
whatever was on disk before. -/
def saveUsers (m : Store) (_oldFile : Option String) : Option String :=
  some (dumpUsers m)

/-- The credential-store load (`main.py` lines 59-66): an absent file is
initialized to the empty object and read back; unparseable content resets
the in-memory store to empty and leaves the file as it was. -/
def loadUsersFile : Option String → Store × Option String
  | none => ([], some (dumpUsers []))
  | some s => ((parseUsers s).getD [], some s)

/-! ### Authenticator and agent directory (`main.py` lines 49, 69-135) -/

def emailSuffix : String := "@fetchrewards.com"

/-- `email.endswith(suffix)`: the suffix test on the character sequence. -/
def hasSuffix (s post : String) : Bool := post.toList.isSuffixOf s.toList

/-- Python string comparison: lexicographic on code points. -/
def charListLe : List Char → List Char → Bool
  | [], _ => true
  | _ :: _, [] => false
  | a :: as, b :: bs =>
    if a.toNat < b.toNat then true
    else if a.toNat = b.toNat then charListLe as bs
    else false

def ADMIN_EMAILS : List String :=
  ["z.thomson@fetchrewards.com", "b.johnson@fetchrewards.com"]

def lookupUser (m : Store) (k : String) : Option UserRec :=
  (m.find? (fun p => p.1 == k)).map (fun p => p.2)

def hasKey (m : Store) (k : String) : Bool := (lookupUser m k).isSome

/-- Python dict assignment `users[email] = ...`: replace in place if the key
exists, otherwise append in insertion order. -/
def dictSet (m : Store) (k : String) (v : UserRec) : Store :=
  if hasKey m k then m.map (fun p => if p.1 == k then (k, v) else p)
  else m ++ [(k, v)]

/-- The login test (`main.py` line 91):
`email in users and hash_pw(pw) == users[email]["hash"]`. -/
def authenticate (users : Store) (email pw : String) : Bool :=
  match lookupUser users email with
  | some r => hash_pw pw == r.hash
  | none => false

structure LoginOut where
  loggedIn : Bool
  sessionEmail : Option String
  errMsg : Option String
  logs : List (String × String)
deriving DecidableEq

/-- The login handler (`main.py` lines 90-96). -/
def login (users : Store) (email pw : String) : LoginOut :=
  if authenticate users email pw then ⟨true, some email, none, []⟩
  else ⟨false, none, some "❌ Invalid credentials. [E1001]",
        [("E1001", "Login failed: " ++ email)]⟩

abbrev Directory := List (String × List String)

/-- `EMAIL_TO_AGENTS.get(email, [])` (`main.py` line 129). -/
def dirGet (d : Directory) (e : String) : List String :=
  ((d.find? (fun p => p.1 == e)).map (fun p => p.2)).getD []

/-- `email in EMAIL_TO_AGENTS` (`main.py` line 109). -/
def dirHasKey (d : Directory) (e : String) : Bool :=
  (d.find? (fun p => p.1 == e)).isSome

/-- `ALL_AGENTS` (`main.py` line 77): the sorted set of every agent name
appearing under any supervisor. -/
def allAgents (d : Directory) : List String :=
  ((d.foldr (fun p acc => p.2 ++ acc) []).dedup).insertionSort
    (fun a b => charListLe a.toList b.toList = true)

structure RegOut where
  users : Store
  file : Option String
  errCode : Option String
  message : String
  logs : List (String × String)
  justSignedUp : Bool
deriving DecidableEq

/-- The signup handler (`main.py` lines 102-116): four guards in source
order, first failure wins; on success the password is hashed, the record
inserted and the whole store persisted.  No branch of this handler calls
`log_error`. -/
def signup (users : Store) (file : Option String) (dir : Directory)
    (admins : List String) (email pw1 pw2 : String) : RegOut :=
  if hasSuffix email emailSuffix = false then
    ⟨users, file, some "E1002", "Must use a @fetchrewards.com email. [E1002]", [], false⟩
  else if pw1 ≠ pw2 then
    ⟨users, file, some "E1003", "Passwords do not match. [E1003]", [], false⟩
  else if hasKey users email then
    ⟨users, file, some "E1004", "User already exists. [E1004]", [], false⟩
  else if dirHasKey dir email = false ∧ email ∉ admins then
    ⟨users, file, some "E2001",
     "You are not mapped to any agents. Contact admin. [E2001]", [], false⟩
  else
    let users' := dictSet users email ⟨hash_pw pw1⟩
    ⟨users', some (dumpUsers users'), none, "✅ Account created. Please log in.", [], true⟩

structure AgentsOut where
  agents : Option (List String)
  errMsg : Option String
  logs : List (String × String)
deriving DecidableEq

/-- The post-login agent resolution (`main.py` lines 127-135): the
directory's list for the session email, widened to `ALL_AGENTS` for an admin
with an empty list, and fatal (`agents = none`, i.e. `st.stop()`) with a
logged `E2001` when still empty. -/
def visibleAgents (dir : Directory) (admins : List String) (email : String) :
    AgentsOut :=
  let l0 := dirGet dir email
  let l1 := if email ∈ admins ∧ l0 = [] then allAgents dir else l0
  if l1 = [] then
    ⟨none, some "No agents mapped to your account. [E2001]",
     [("E2001", "No agents mapped for " ++ email)]⟩
  else ⟨some l1, none, []⟩

structure DirLoadOut where
  dir : Option Directory
  errMsg : Option String
  logs : List (String × String)
deriving DecidableEq

/-- The agent-directory startup load (`main.py` lines 69-74): a missing
`EMAIL_TO_AGENTS.json` shows and logs `E9001` and stops the script
(`dir = none`); otherwise the file's mapping is used unchanged. -/
def loadAgentDirectory : Option Directory → DirLoadOut
  | none => ⟨none, some "EMAIL_TO_AGENTS.json missing. [E9001]",
             [("E9001", "Missing EMAIL_TO_AGENTS.json")]⟩
  | some d => ⟨some d, none, []⟩

/-! ### Log query engine

Modelled from the spec: the log parsing and pagination component
(spec sections 3, 4.4 and 6) is not among the repository's source files
under `src/`; only this dashboard script is.  `parse_line`, `joinTokens`,
`maxPage`, `clampPage` and `paginate` below follow the spec's words: a line
splits into whitespace-separated segments, fewer than four segments drops
the line, the first two segments are the timestamp, the third the bracketed
level, and the leading bracketed segment of the payload (if present) the
error code; pages of size 20 are zero-based slices with the page number
clamped to the valid range. -/

structure LogEntry where
  timestamp : String
  level : String
  error_code : Option String
  message : String
deriving DecidableEq

def isWsChar (c : Char) : Bool :=
  c == ' ' || c == '\x09' || c == '\x0a' || c == '\x0d' || c == '\x0b' || c == '\x0c'

/-- Split on runs of whitespace, dropping empty segments, as `str.split()`
with no argument does; `acc` holds the characters of the current segment in
reverse. -/
def splitWsAux : List Char → List Char → List (List Char)
  | [], acc => if acc = [] then [] else [acc.reverse]
  | c :: rest, acc =>
    if isWsChar c then
      (if acc = [] then splitWsAux rest [] else acc.reverse :: splitWsAux rest [])
    else splitWsAux rest (c :: acc)

def splitWs (l : List Char) : List (List Char) := splitWsAux l []

def joinTokens : List (List Char) → List Char
  | [] => []
  | [t] => t
  | t :: t2 :: rest => t ++ ' ' :: joinTokens (t2 :: rest)

def bracketed (t : List Char) : Bool :=
  match t with
  | '[' :: rest => rest.getLast? == some ']'
  | _ => false

def stripBrackets (t : List Char) : List Char :=
  if bracketed t then (t.drop 1).dropLast else t

/-- Modelled from the spec: `parse_line(line) -> Option<LogEntry>` of
spec section 4.4, over the line grammar of section 6. -/
def parse_line (line : String) : Option LogEntry :=
  match splitWs line.toList with
  | t0 :: t1 :: t2 :: r0 :: rest =>
    some { timestamp := (t0 ++ ' ' :: t1).asString
           level := (stripBrackets t2).asString
           error_code := if bracketed r0 then some ((stripBrackets r0).asString) else none
           message := if bracketed r0 then (joinTokens rest).asString
                      else (joinTokens (r0 :: rest)).asString }
  | _ => none

/-- Modelled from the spec: the greatest valid page,
`max 1 (ceil (total / size))`. -/
def maxPage (total size : Nat) : Nat := max 1 ((total + size - 1) / size)

/-- Modelled from the spec: the requested page clamped to
`[1, maxPage total size]`. -/
def clampPage (page total size : Nat) : Nat := min (max page 1) (maxPage total size)

/-- Modelled from the spec: `paginate(entries, page, page_size)` of spec
section 4.4, the zero-based slice `[(p-1)*size, p*size)` at the clamped
page `p`. -/
def paginate {α : Type} (l : List α) (page size : Nat) : List α :=
  let p := clampPage page l.length size
  (l.drop ((p - 1) * size)).take size

/-- A two-supervisor directory used to instantiate theorems at concrete
inputs. -/
def exDir : Directory := [("sup@fetchrewards.com", ["Alice", "Bob"])]

/-! ## Theorems -/

/-! ### Round-trip of the persisted credential store -/

theorem toNat_ofNat_valid {n : Nat} (h : n.isValidChar) : (Char.ofNat n).toNat = n := by
  simp [Char.ofNat, dif_pos h, Char.ofNatAux, Char.toNat, UInt32.toNat]

theorem char_valid_nat (c : Char) :
    c.toNat < 55296 ∨ (57343 < c.toNat ∧ c.toNat < 1114112) := by
  rcases c.valid with h | ⟨h1, h2⟩
  · exact Or.inl h
  · exact Or.inr ⟨h1, h2⟩

theorem hexVal_hexDigit : ∀ k < 16, hexVal (hexDigit k) = some k := by decide

theorem asString_toList (s : String) : s.toList.asString = s := rfl

theorem asString_data (s : String) : s.data.asString = s := rfl

theorem toList_asString (l : List Char) : l.asString.toList = l := rfl

theorem parseHex4_hex4 (n : Nat) (h : n < 65536) (r : List Char) :
    parseHex4 (hex4 n ++ r) = some (n, r) := by
  have e1 := hexVal_hexDigit (n / 4096 % 16) (by omega)
  have e2 := hexVal_hexDigit (n / 256 % 16) (by omega)
  have e3 := hexVal_hexDigit (n / 16 % 16) (by omega)
  have e4 := hexVal_hexDigit (n % 16) (by omega)
  have hn : n / 4096 % 16 * 4096 + n / 256 % 16 * 256 + n / 16 % 16 * 16 + n % 16 = n := by
    omega
  simp [hex4, parseHex4, e1, e2, e3, e4, hn]

theorem parseU_low (n : Nat) (h : n < 65536) (hs : ¬(55296 ≤ n ∧ n ≤ 57343))
    (r : List Char) : parseU (hex4 n ++ r) = some (Char.ofNat n, r) := by
  have hs1 : ¬(55296 ≤ n ∧ n ≤ 56319) := by omega
  have hs2 : ¬(56320 ≤ n ∧ n ≤ 57343) := by omega
  simp [parseU, parseHex4_hex4 n h, hs1, hs2]

theorem parseU_pair (q rem : Nat) (hq : q < 1024) (hrem : rem < 1024) (r : List Char) :
    parseU (hex4 (55296 + q) ++ ('\\' :: 'u' :: (hex4 (56320 + rem) ++ r))) =
      some (Char.ofNat (65536 + q * 1024 + rem), r) := by
  have hhi : 55296 ≤ 55296 + q ∧ 55296 + q ≤ 56319 := by omega
  have hlo : 56320 ≤ 56320 + rem ∧ 56320 + rem ≤ 57343 := by omega
  simp [parseU, parseHex4_hex4 (55296 + q) (by omega),
    parseHex4_hex4 (56320 + rem) (by omega), hhi, hlo]

theorem parseStr_u (fuel : Nat) (rr r2 : List Char) (ch : Char)
    (h : parseU rr = some (ch, r2)) :
    parseStr (fuel + 1) ('\\' :: 'u' :: rr) = consStr ch (parseStr fuel r2) := by
  simp [parseStr, h]

/-- Unescaping inverts escaping one character at a time. -/
theorem parseStr_escapeChar (c : Char) (r : List Char) (fuel : Nat) :
    parseStr (fuel + 1) (escapeChar c ++ r) = consStr c (parseStr fuel r) := by
  by_cases h1 : c = '\x22'
  · subst h1; simp [escapeChar, parseStr]
  by_cases h2 : c = '\\'
  · subst h2; simp [escapeChar, parseStr]
  by_cases h3 : c = '\x08'
  · subst h3; simp [escapeChar, parseStr]
  by_cases h4 : c = '\x09'
  · subst h4; simp [escapeChar, parseStr]
  by_cases h5 : c = '\x0a'
  · subst h5; simp [escapeChar, parseStr]
  by_cases h6 : c = '\x0c'
  · subst h6; simp [escapeChar, parseStr]
  by_cases h7 : c = '\x0d'
  · subst h7; simp [escapeChar, parseStr]
  by_cases h8 : 32 ≤ c.toNat ∧ c.toNat ≤ 126
  · simp [escapeChar, h1, h2, h3, h4, h5, h6, h7, h8, parseStr]
  by_cases h9 : c.toNat < 65536
  · have hs : ¬(55296 ≤ c.toNat ∧ c.toNat ≤ 57343) := by
      rcases char_valid_nat c with h | ⟨hA, hB⟩ <;> omega
    have hesc : escapeChar c = '\\' :: 'u' :: hex4 c.toNat := by
      simp [escapeChar, h1, h2, h3, h4, h5, h6, h7, h8, h9]
    rw [hesc, List.cons_append, List.cons_append,
      parseStr_u fuel _ r c (by rw [parseU_low c.toNat h9 hs, Char.ofNat_toNat])]
  · have hv := char_valid_nat c
    have hesc : escapeChar c = '\\' :: 'u' :: hex4 (55296 + (c.toNat - 65536) / 1024) ++
        '\\' :: 'u' :: hex4 (56320 + (c.toNat - 65536) % 1024) := by
      simp [escapeChar, h1, h2, h3, h4, h5, h6, h7, h8, h9]
    have hu := parseU_pair ((c.toNat - 65536) / 1024) ((c.toNat - 65536) % 1024)
      (by omega) (by omega) r
    rw [show 65536 + (c.toNat - 65536) / 1024 * 1024 + (c.toNat - 65536) % 1024 = c.toNat
      by omega, Char.ofNat_toNat] at hu
    rw [hesc, List.append_assoc, List.cons_append, List.cons_append,
      List.cons_append, List.cons_append, parseStr_u fuel _ r c hu]

/-- Unescaping inverts escaping a whole string, leaving the remainder after
the closing quote untouched. -/
theorem parseStr_escapeString (s : List Char) :
    ∀ (r : List Char) (fuel : Nat), s.length < fuel →
      parseStr fuel (escapeString s ++ '\x22' :: r) = some (s, r) := by
  induction s with
  | nil =>
    intro r fuel hf
    match fuel, hf with
    | f + 1, _ => simp [escapeString, parseStr]
  | cons c s ih =>
    intro r fuel hf
    match fuel, hf with
    | f + 1, hf =>
      have : escapeString (c :: s) = escapeChar c ++ escapeString s := rfl
      rw [this, List.append_assoc, parseStr_escapeChar,
        ih r f (by simpa using Nat.lt_of_succ_lt_succ hf)]
      rfl

theorem escapeChar_length_pos (c : Char) : 1 ≤ (escapeChar c).length := by
  unfold escapeChar
  split_ifs <;> simp [hex4]

theorem length_le_escapeString (s : List Char) : s.length ≤ (escapeString s).length := by
  induction s with
  | nil => simp [escapeString]
  | cons c s ih =>
    have h := escapeChar_length_pos c
    have : escapeString (c :: s) = escapeChar c ++ escapeString s := rfl
    rw [this]
    simp only [List.length_append, List.length_cons]
    omega

theorem dropLit_self : ∀ (p l : List Char), dropLit p (p ++ l) = some l := by
  intro p
  induction p with
  | nil => intro l; rfl
  | cons x ps ih => intro l; simp [dropLit, ih]

/-- Parsing one serialized entry followed by the closing brace of the store
object. -/
theorem parseEntries_entry_last (f : Nat) (e : String) (rec : UserRec) :
    parseEntries (f + 1) (dumpEntry e rec ++ ['\x7d']) = some [(e, rec)] := by
  unfold dumpEntry
  simp only [List.cons_append, List.append_assoc, List.nil_append]
  have hp1 := parseStr_escapeString e.toList
    (midLit ++ (escapeString rec.hash.toList ++ '\x22' :: '\x7d' :: ['\x7d']))
  have hp2 := parseStr_escapeString rec.hash.toList ('\x7d' :: ['\x7d'])
  simp only [parseEntries]
  rw [hp1 _ (by
    have := length_le_escapeString e.toList
    simp only [List.length_append, List.length_cons]
    omega)]
  simp only [dropLit_self]
  rw [hp2 _ (by
    have := length_le_escapeString rec.hash.toList
    simp only [List.length_append, List.length_cons]
    omega)]
  rfl

/-- Parsing one serialized entry followed by the `", "` separator and more
input. -/
theorem parseEntries_entry_cons (f : Nat) (e : String) (rec : UserRec) (r4 : List Char) :
    parseEntries (f + 1) (dumpEntry e rec ++ (',' :: ' ' :: r4)) =
      (parseEntries f r4).map (fun l => (e, rec) :: l) := by
  unfold dumpEntry
  simp only [List.cons_append, List.append_assoc, List.nil_append]
  have hp1 := parseStr_escapeString e.toList
    (midLit ++ (escapeString rec.hash.toList ++ '\x22' :: '\x7d' :: ',' :: ' ' :: r4))
  have hp2 := parseStr_escapeString rec.hash.toList ('\x7d' :: ',' :: ' ' :: r4)
  simp only [parseEntries]
  rw [hp1 _ (by
    have := length_le_escapeString e.toList
    simp only [List.length_append, List.length_cons]
    omega)]
  simp only [dropLit_self]
  rw [hp2 _ (by
    have := length_le_escapeString rec.hash.toList
    simp only [List.length_append, List.length_cons]
    omega)]
  rfl

theorem parseEntries_dumpEntries :
    ∀ (m : Store) (fuel : Nat), m.length < fuel →
      parseEntries fuel (dumpEntries m ++ ['\x7d']) = some m := by
  intro m
  induction m with
  | nil =>
    intro fuel hf
    match fuel, hf with
    | f + 1, _ => rfl
  | cons p rest ih =>
    obtain ⟨e, rec⟩ := p
    intro fuel hf
    match fuel, hf with
    | f + 1, hf =>
      cases rest with
      | nil =>
        simp only [dumpEntries, List.append_nil]
        exact parseEntries_entry_last f e rec
      | cons q rest' =>
        have hd : dumpEntries ((e, rec) :: q :: rest') =
            dumpEntry e rec ++ (',' :: ' ' :: dumpEntries (q :: rest')) := rfl
        rw [hd, List.append_assoc, List.cons_append, List.cons_append,
          parseEntries_entry_cons,
          ih f (by simpa using Nat.lt_of_succ_lt_succ hf)]
        rfl

theorem dumpEntries_length_ge (m : Store) : m.length ≤ (dumpEntries m).length := by
  induction m with
  | nil => simp [dumpEntries]
  | cons p rest ih =>
    obtain ⟨e, rec⟩ := p
    cases rest with
    | nil => simp [dumpEntries, dumpEntry]
    | cons q rest' =>
      have hd : dumpEntries ((e, rec) :: q :: rest') =
          dumpEntry e rec ++ (',' :: ' ' :: dumpEntries (q :: rest')) := rfl
      rw [hd]
      simp only [List.length_append, List.length_cons, dumpEntry] at *
      omega

/-- `json.load` inverts `json.dump` on every store this program writes. -/
theorem parseUsers_dumpUsers (m : Store) : parseUsers (dumpUsers m) = some m := by
  unfold parseUsers dumpUsers
  rw [toList_asString]
  exact parseEntries_dumpEntries m ((dumpEntries m ++ ['\x7d']).length + 1) (by
    have := dumpEntries_length_ge m
    simp only [List.length_append, List.length_cons, List.length_nil]
    omega)

/-- Claim C1: a registration request is rejected iff the email lacks the
suffix `@fetchrewards.com` (InvalidDomain, `E1002`), or the two passwords
differ (PasswordMismatch, `E1003`), or the email already has a credential
record (AlreadyExists, `E1004`), or the email is neither a directory key nor
in the admin allow-list (Unmapped, `E2001`); the four checks apply in exactly
this order, the first failing check determining the reported error, and on
success the password is hashed, the record inserted, and the whole store
persisted. -/
theorem signup_checks_order_and_success (users : Store) (file : Option String)
    (dir : Directory) (admins : List String) (email pw1 pw2 : String) :
    ((signup users file dir admins email pw1 pw2).errCode.isSome ↔
      (hasSuffix email emailSuffix = false ∨ pw1 ≠ pw2 ∨ hasKey users email = true ∨
        (dirHasKey dir email = false ∧ email ∉ admins))) ∧
    ((signup users file dir admins email pw1 pw2).errCode = some "E1002" ↔
      hasSuffix email emailSuffix = false) ∧
    ((signup users file dir admins email pw1 pw2).errCode = some "E1003" ↔
      (hasSuffix email emailSuffix = true ∧ pw1 ≠ pw2)) ∧
    ((signup users file dir admins email pw1 pw2).errCode = some "E1004" ↔
      (hasSuffix email emailSuffix = true ∧ pw1 = pw2 ∧ hasKey users email = true)) ∧
    ((signup users file dir admins email pw1 pw2).errCode = some "E2001" ↔
      (hasSuffix email emailSuffix = true ∧ pw1 = pw2 ∧ hasKey users email = false ∧
        dirHasKey dir email = false ∧ email ∉ admins)) ∧
    ((signup users file dir admins email pw1 pw2).errCode = none →
      (signup users file dir admins email pw1 pw2).users =
        dictSet users email ⟨hash_pw pw1⟩ ∧
      (signup users file dir admins email pw1 pw2).file =
        some (dumpUsers (dictSet users email ⟨hash_pw pw1⟩))) := by
  unfold signup
  split_ifs with h1 h2 h3 h4 <;> simp_all

/-- Claim C1, success witness: registering an unused admin email with
matching passwords passes all four checks, inserts the hashed record and
persists the store. -/
theorem signup_checks_witness :
    (signup [] (some (dumpUsers [])) exDir ADMIN_EMAILS
      "z.thomson@fetchrewards.com" "pw" "pw").users =
      dictSet [] "z.thomson@fetchrewards.com" ⟨hash_pw "pw"⟩ ∧
    (signup [] (some (dumpUsers [])) exDir ADMIN_EMAILS
      "z.thomson@fetchrewards.com" "pw" "pw").file =
      some (dumpUsers (dictSet [] "z.thomson@fetchrewards.com" ⟨hash_pw "pw"⟩)) :=
  (signup_checks_order_and_success [] (some (dumpUsers [])) exDir ADMIN_EMAILS
    "z.thomson@fetchrewards.com" "pw" "pw").2.2.2.2.2 (by decide)

/-- Claim C3: the visible agent set is the directory's list when that list
is nonempty; an admin whose list is empty or missing sees the full agent
universe; and when the result is still empty an `E2001` error is shown and
logged and the run halts (`agents = none`). -/
theorem visibleAgents_spec (dir : Directory) (admins : List String) (email : String) :
    (dirGet dir email ≠ [] →
      visibleAgents dir admins email = ⟨some (dirGet dir email), none, []⟩) ∧
    (dirGet dir email = [] → email ∈ admins → allAgents dir ≠ [] →
      visibleAgents dir admins email = ⟨some (allAgents dir), none, []⟩) ∧
    (dirGet dir email = [] → (email ∉ admins ∨ allAgents dir = []) →
      visibleAgents dir admins email =
        ⟨none, some "No agents mapped to your account. [E2001]",
         [("E2001", "No agents mapped for " ++ email)]⟩) := by
  refine ⟨fun h0 => ?_, fun h0 hadm hall => ?_, fun h0 hrest => ?_⟩
  · simp [visibleAgents, h0]
  · simp [visibleAgents, h0, hadm, hall]
  · rcases hrest with h | h <;> simp [visibleAgents, h0, h]

/-- Claim C3, witness: a mapped supervisor sees exactly their own list, and
an unmapped admin sees the full universe. -/
theorem visibleAgents_witness :
    visibleAgents exDir ADMIN_EMAILS "sup@fetchrewards.com" =
      ⟨some ["Alice", "Bob"], none, []⟩ ∧
    visibleAgents exDir ADMIN_EMAILS "z.thomson@fetchrewards.com" =
      ⟨some (allAgents exDir), none, []⟩ := by
  constructor
  · exact (visibleAgents_spec exDir ADMIN_EMAILS "sup@fetchrewards.com").1 (by decide)
  · exact (visibleAgents_spec exDir ADMIN_EMAILS "z.thomson@fetchrewards.com").2.1
      (by decide) (by decide) (by decide)

/-- Claim C4, counterexample: on the registration path, the Unmapped error
(`E2001`, `main.py` line 110) shows a user-visible message but writes no log
entry, so the claim that every path raising Unmapped also logs it is false
at this concrete input. -/
theorem signup_unmapped_unlogged_cex :
    (signup [] (some (dumpUsers [])) exDir ADMIN_EMAILS
      "carol@fetchrewards.com" "pw" "pw").errCode = some "E2001" ∧
    (signup [] (some (dumpUsers [])) exDir ADMIN_EMAILS
      "carol@fetchrewards.com" "pw" "pw").logs = [] := by
  constructor <;> rfl

/-- Claim C4 as amended: an Unmapped (`E2001`) error raised on the
post-login path is accompanied by a durable log entry with its stable code,
while on the registration path only the user-visible message is shown and no
log entry is written. -/
theorem unmapped_logging_amended (users : Store) (file : Option String)
    (dir : Directory) (admins : List String) (email pw1 pw2 : String) :
    ((visibleAgents dir admins email).agents = none →
      ("E2001", "No agents mapped for " ++ email) ∈ (visibleAgents dir admins email).logs ∧
      (visibleAgents dir admins email).errMsg =
        some "No agents mapped to your account. [E2001]") ∧
    ((signup users file dir admins email pw1 pw2).errCode = some "E2001" →
      (signup users file dir admins email pw1 pw2).message =
        "You are not mapped to any agents. Contact admin. [E2001]" ∧
      (signup users file dir admins email pw1 pw2).logs = []) := by
  constructor
  · intro h
    by_cases h1 : dirGet dir email = [] <;>
      by_cases h2 : email ∈ admins <;>
        by_cases h3 : allAgents dir = [] <;>
          simp_all [visibleAgents]
  · intro h
    unfold signup at h ⊢
    split_ifs at h ⊢ <;> simp_all

/-- Claim C4 (amended), witness: a non-admin unmapped identity at the
post-login path produces the `E2001` log entry, and the same identity
rejected at registration produces none. -/
theorem unmapped_logging_amended_witness :
    ("E2001", "No agents mapped for " ++ "carol@fetchrewards.com") ∈
      (visibleAgents exDir ADMIN_EMAILS "carol@fetchrewards.com").logs ∧
    (signup [] (some (dumpUsers [])) exDir ADMIN_EMAILS
      "carol@fetchrewards.com" "pw" "pw").logs = [] := by
  constructor
  · exact ((unmapped_logging_amended [] none exDir ADMIN_EMAILS
      "carol@fetchrewards.com" "" "").1 (by decide)).1
  · exact ((unmapped_logging_amended [] (some (dumpUsers [])) exDir ADMIN_EMAILS
      "carol@fetchrewards.com" "pw" "pw").2 (by decide)).2

/-- Claim C5: loading the credential store with the persisted file absent
initializes an empty store and persists it immediately; loading unparseable
content resets the in-memory store to empty (the load is total, so no
exception reaches the caller) and leaves the file as it was. -/
theorem loadUsersFile_spec :
    loadUsersFile none = ([], some (dumpUsers [])) ∧
    (∀ s : String, parseUsers s = none → loadUsersFile (some s) = ([], some s)) := by
  refine ⟨rfl, fun s h => ?_⟩
  simp [loadUsersFile, h]

/-- Claim C5, witness: a concrete non-JSON credential file is recovered to
the empty store. -/
theorem loadUsersFile_witness :
    loadUsersFile (some "corrupt") = ([], some "corrupt") :=
  loadUsersFile_spec.2 "corrupt" (by decide)

/-- Claim C6: a missing agent-directory file at startup yields the fatal
`E9001` error (`dir = none`: every user's processing halts), with the
user-visible message and a log entry carrying the stable code, and an
existing file is used unchanged, so no fallback directory exists. -/
theorem loadAgentDirectory_spec :
    loadAgentDirectory none =
      ⟨none, some "EMAIL_TO_AGENTS.json missing. [E9001]",
       [("E9001", "Missing EMAIL_TO_AGENTS.json")]⟩ ∧
    (∀ d : Directory, loadAgentDirectory (some d) = ⟨some d, none, []⟩) :=
  ⟨rfl, fun _ => rfl⟩

/-- Claim C10: a failed registration changes nothing observable: whenever
any of the four checks rejects the request, both the in-memory user mapping
and the persisted credential file are returned unmodified. -/
theorem signup_failure_preserves_store (users : Store) (file : Option String)
    (dir : Directory) (admins : List String) (email pw1 pw2 : String)
    (h : (signup users file dir admins email pw1 pw2).errCode.isSome) :
    (signup users file dir admins email pw1 pw2).users = users ∧
    (signup users file dir admins email pw1 pw2).file = file := by
  unfold signup at h ⊢
  split_ifs at h ⊢ <;> simp_all

/-- Claim C10, witness: a rejected registration (wrong domain) leaves the
store and file exactly as they were. -/
theorem signup_failure_preserves_store_witness :
    (signup [] (some (dumpUsers [])) exDir ADMIN_EMAILS
      "bob@gmail.com" "pw" "pw").users = [] ∧
    (signup [] (some (dumpUsers [])) exDir ADMIN_EMAILS
      "bob@gmail.com" "pw" "pw").file = some (dumpUsers []) :=
  signup_failure_preserves_store [] (some (dumpUsers [])) exDir ADMIN_EMAILS
    "bob@gmail.com" "pw" "pw" (by decide)

/-- Claim C7: saving the credential store overwrites the entire persisted
file from the in-memory mapping (the previous content is ignored), and
loading it back yields a mapping identical to the one saved, for every
finite mapping of credential records. -/
theorem save_load_roundtrip (m : Store) (oldFile : Option String) :
    loadUsersFile (saveUsers m oldFile) = (m, some (dumpUsers m)) := by
  simp [saveUsers, loadUsersFile, parseUsers_dumpUsers]

/-- The login test of `main.py` line 91 succeeds exactly when a record
exists for the email and its stored hash is the digest of the supplied
password. -/
theorem authenticate_iff (users : Store) (email pw : String) :
    authenticate users email pw = true ↔
      ∃ r, lookupUser users email = some r ∧ hash_pw pw = r.hash := by
  unfold authenticate
  cases h : lookupUser users email <;> simp [h]

theorem sha256Compress_length (st block : List Nat) :
    (sha256Compress st block).length = 8 := rfl

theorem foldl_compress_length (blocks : List (List Nat)) :
    ∀ st : List Nat, st.length = 8 →
      (blocks.foldl (fun s b => sha256Compress s (bytesToWords b)) st).length = 8 := by
  induction blocks with
  | nil => intro st h; simpa using h
  | cons b bs ih =>
    intro st _
    exact ih (sha256Compress st (bytesToWords b)) (sha256Compress_length _ _)

theorem foldr_hex8_length (l : List Nat) :
    (l.foldr (fun wd acc => hex8 wd ++ acc) []).length = 8 * l.length := by
  induction l with
  | nil => rfl
  | cons a t ih =>
    show (hex8 a ++ t.foldr (fun wd acc => hex8 wd ++ acc) []).length = 8 * (a :: t).length
    rw [List.length_append, ih]
    have h8 : (hex8 a).length = 8 := rfl
    rw [h8, List.length_cons]
    omega

/-- Every digest `hash_pw` produces is 64 hex characters long. -/
theorem hash_pw_length (pw : String) : (hash_pw pw).length = 64 := by
  unfold hash_pw sha256Hex
  show (List.foldr (fun wd acc => hex8 wd ++ acc) [] _).length = 64
  rw [foldr_hex8_length, foldl_compress_length _ sha256H0 rfl]

/-- Claim C2, counterexample: the claim quantifies over every password and
credential store, so take the store whose single record holds the digest of
`"xassword"` and the password `"password"`; changing its first character to
`x` yields `"xassword"`, and authentication then succeeds instead of
failing.  (For a record holding the digest of the password itself, the
one-character clause is SHA-256 collision-freeness on one-character
variants, which is not provable either.) -/
theorem authenticate_one_char_cex :
    "xassword".toList = "password".toList.set 0 'x' ∧
    authenticate [("bob@x.com", ⟨hash_pw "xassword"⟩)] "bob@x.com" "xassword" = true := by
  constructor
  · decide
  · simp [authenticate, lookupUser, List.find?]

/-- Claim C2 as amended: authentication succeeds iff a record exists for the
email and its stored hash equals the SHA-256 hex digest of the supplied
password; in particular, a supplied password whose digest differs from the
stored hash is rejected — changing one character of the password makes
authentication fail exactly when the new digest differs from the stored
hash. -/
theorem authenticate_amended (users : Store) (email pw : String) :
    (authenticate users email pw = true ↔
      ∃ r, lookupUser users email = some r ∧ hash_pw pw = r.hash) ∧
    (∀ r : UserRec, lookupUser users email = some r → hash_pw pw ≠ r.hash →
      authenticate users email pw = false) := by
  refine ⟨authenticate_iff users email pw, fun r hr hne => ?_⟩
  unfold authenticate
  rw [hr]
  simp [hne]

/-- Claim C2 (amended), witness: a record whose stored field is not a digest
(the empty string, while every digest has 64 characters) rejects every
password. -/
theorem authenticate_amended_witness :
    authenticate [("bob@x.com", (⟨""⟩ : UserRec))] "bob@x.com" "password" = false :=
  (authenticate_amended [("bob@x.com", ⟨""⟩)] "bob@x.com" "password").2 ⟨""⟩
    (by decide)
    (fun h => by
      have hl := hash_pw_length "password"
      rw [h] at hl
      simp at hl)

/-- Claim C8: a line splitting into fewer than four whitespace-separated
segments is dropped (`none`); a well-formed four-field line, whose split is
two timestamp segments, a bracketed level and a payload with a leading
bracketed code, recovers the timestamp, level and error code exactly; the
concrete example line of the spec parses to level `ERROR`, code `E1001`,
message `Login failed: bob@x.com`. -/
theorem parse_line_spec :
    (∀ line : String, (splitWs line.toList).length < 4 → parse_line line = none) ∧
    (∀ (line : String) (ts1 ts2 lvl code : List Char) (ms : List (List Char)),
      splitWs line.toList =
        ts1 :: ts2 :: ('[' :: lvl ++ [']']) :: ('[' :: code ++ [']']) :: ms →
      parse_line line = some ⟨(ts1 ++ ' ' :: ts2).asString, lvl.asString,
        some code.asString, (joinTokens ms).asString⟩) ∧
    (parse_line "2024-01-01 10:00:00 [ERROR] [E1001] Login failed: bob@x.com" =
      some ⟨"2024-01-01 10:00:00", "ERROR", some "E1001", "Login failed: bob@x.com"⟩) := by
  refine ⟨?_, ?_, by decide⟩
  · intro line hlen
    unfold parse_line
    rcases hs : splitWs line.toList with _ | ⟨t0, _ | ⟨t1, _ | ⟨t2, _ | ⟨r0, rest⟩⟩⟩⟩
    · rfl
    · rfl
    · rfl
    · rfl
    · rw [hs] at hlen
      simp [List.length_cons] at hlen
      omega
  · intro line ts1 ts2 lvl code ms hs
    unfold parse_line
    rw [hs]
    simp [bracketed, stripBrackets, List.getLast?_concat, List.dropLast_concat]

/-- Claim C8, witness: the spec's example line instantiates the general
recovery statement, and a two-token line is dropped. -/
theorem parse_line_witness :
    parse_line "2024-01-01 10:00:00 [ERROR] [E1001] Login failed: bob@x.com" =
      some ⟨("2024-01-01".toList ++ ' ' :: "10:00:00".toList).asString,
        ("ERROR".toList).asString, some (("E1001".toList).asString),
        (joinTokens ["Login".toList, "failed:".toList, "bob@x.com".toList]).asString⟩ ∧
    parse_line "too short" = none := by
  constructor
  · exact parse_line_spec.2.1 "2024-01-01 10:00:00 [ERROR] [E1001] Login failed: bob@x.com"
      "2024-01-01".toList "10:00:00".toList "ERROR".toList "E1001".toList
      ["Login".toList, "failed:".toList, "bob@x.com".toList] (by decide)
  · exact parse_line_spec.1 "too short" (by decide)

/-- Claim C9: `paginate` with page size 20 returns the zero-based slice
`[(p-1)*20, p*20)` at the clamped page `p`, the clamped page always lies in
`[1, max 1 (ceil (total/20))]`, an in-range page is not changed by clamping,
and on 45 entries page 1 yields entries 0-19, page 3 yields entries 40-44,
and page 99 clamps to the last valid page 3. -/
theorem paginate_spec (α : Type) :
    (∀ (l : List α) (page : Nat),
      paginate l page 20 = (l.drop ((clampPage page l.length 20 - 1) * 20)).take 20 ∧
      1 ≤ clampPage page l.length 20 ∧
      clampPage page l.length 20 ≤ maxPage l.length 20) ∧
    (∀ (l : List α) (page : Nat), 1 ≤ page → page ≤ maxPage l.length 20 →
      paginate l page 20 = (l.drop ((page - 1) * 20)).take 20) ∧
    (maxPage 45 20 = 3) ∧
    (paginate (List.range 45) 1 20 = List.range 20) ∧
    (paginate (List.range 45) 3 20 = List.range' 40 5) ∧
    (paginate (List.range 45) 99 20 = paginate (List.range 45) 3 20) := by
  refine ⟨fun l page => ⟨rfl, ?_, ?_⟩, fun l page h1 h2 => ?_, by decide, by decide,
    by decide, by decide⟩
  · unfold clampPage maxPage
    omega
  · unfold clampPage maxPage
    omega
  · have hc : clampPage page l.length 20 = page := by
      unfold clampPage maxPage at *
      omega
    unfold paginate
    rw [hc]

/-- Claim C9, witness: an in-range page of a 45-entry list is served
unclamped. -/
theorem paginate_witness :
    paginate (List.range 45) 2 20 = ((List.range 45).drop 20).take 20 :=
  (paginate_spec Nat).2.1 (List.range 45) 2 (by decide) (by decide)

end SAM
